import Mathlib

set_option maxRecDepth 100000

/-!
Verification development for the `serverless-heatmap` repository.

The repository is an ETL orchestration pipeline over an external spatial
database plus a paginated HTTP harvester.  This file gives a shallow
embedding, in Lean, of the parts of the source that the specification's
testable claims are about:

* the category (radio-technology) normalizer of `src/etl/etl.py`
  (the SQL `CASE` expression updating `radio_norm` where it is null);
* the export stage's JSON construction
  (`jsonb_build_object('type','FeatureCollection','features', jsonb_agg(...))`);
* the aggregation stage (left-join counts per tile, the nearest-LTE
  distance table and the per-category summary left-join);
* the harvester of `src/fetch_opencellid_barbados.py`
  (grid tiling of the bounding box, count/pagination loop, header and
  row accounting in the output CSV);
* the argv/environment construction for the external processes launched
  by `src/etl/etl.py` (psql) and `src/etl.py` (docker exec / ogr2ogr);
* the top-level control flow of `src/etl/etl.py` `main`
  (existence-gated skipping of the Ookla-dependent stages).

Numeric columns and coordinates are modelled over `ℚ` (exact arithmetic);
SQL `NULL` is modelled by `Option`; the spatial predicates and the
spherical distance, which the pipeline delegates to the database engine,
are universally quantified parameters.
-/

/-! ## Strings: ASCII upper-casing and substring occurrence

`upper(...)` in the SQL and Python string containment are embedded over
the character list of the string, so that everything reduces in the
kernel. -/

/-- ASCII upper-casing of a string, the embedding of SQL `upper(...)`
applied to the raw radio labels (which are ASCII). -/
def upperString (s : String) : String := String.mk (s.data.map Char.toUpper)

/-- Boolean substring occurrence: `needle` occurs contiguously in `hay`.
Embeds SQL `LIKE '%needle%'` and Python `needle in hay`. -/
def containsStr (needle hay : String) : Bool := decide (needle.toList <:+: hay.toList)

/-! ## Category normalizer (`src/etl/etl.py`, `sql_normalize_radio`)

The SQL is:
```
UPDATE cell_towers.bb_towers SET radio_norm = CASE
  WHEN upper(coalesce(radio,'')) ~ '(?:^|[^A-Z])NR(?:$|[^A-Z])|^5G$|5G_NR|NR5G|NSA5G' THEN '5G'
  WHEN upper(coalesce(radio,'')) LIKE '%LTE%' THEN 'LTE'
  WHEN upper(coalesce(radio,'')) IN ('UMTS','WCDMA','HSPA','HSPA+','3G') THEN '3G'
  WHEN upper(coalesce(radio,'')) IN ('GSM','EDGE','2G') THEN '2G'
  ELSE 'OTHER'
END
WHERE radio_norm IS NULL;
```
-/

/-- Is `c` an ASCII upper-case letter (the regex class `[A-Z]`)? -/
def isUpperAZ (c : Char) : Bool := decide ('A' ≤ c) && decide (c ≤ 'Z')

/-- Scan of a character list for an occurrence of `NR` that is preceded
by start-of-string or a non-`[A-Z]` character and followed by
end-of-string or a non-`[A-Z]` character: the regex alternative
`(?:^|[^A-Z])NR(?:$|[^A-Z])` (an unanchored POSIX match).  `prev` is the
character just before the current scan position (`none` at the start). -/
def nrBounded : Option Char → List Char → Bool
  | prev, 'N' :: 'R' :: rest =>
      ((match prev with
        | none => true
        | some c => !isUpperAZ c) &&
       (match rest with
        | [] => true
        | c :: _ => !isUpperAZ c))
      || nrBounded (some 'N') ('R' :: rest)
  | _, c :: rest => nrBounded (some c) rest
  | _, [] => false

/-- The first `CASE` branch's regex
`'(?:^|[^A-Z])NR(?:$|[^A-Z])|^5G$|5G_NR|NR5G|NSA5G'` applied to the
(already upper-cased) label `u`; `~` is an unanchored POSIX match, so
`^5G$` means the whole string is `5G` while the other alternatives are
substring tests. -/
def matches5G (u : String) : Bool :=
  nrBounded none u.data || (u == "5G") || containsStr "5G_NR" u ||
    containsStr "NR5G" u || containsStr "NSA5G" u

/-- The full `CASE` expression computing the canonical category from the
raw radio label (`none` embeds SQL `NULL`, `coalesce(radio,'')` is
`Option.getD`). -/
def radioNormCase (radio : Option String) : String :=
  let u := upperString (radio.getD "")
  if matches5G u then "5G"
  else if containsStr "LTE" u then "LTE"
  else if u ∈ (["UMTS", "WCDMA", "HSPA", "HSPA+", "3G"] : List String) then "3G"
  else if u ∈ (["GSM", "EDGE", "2G"] : List String) then "2G"
  else "OTHER"

/-- A row of the towers table, restricted to the columns the claims are
about: the raw radio label, the derived canonical category, and the
derived point geometry (`ST_SetSRID(ST_MakePoint(lon,lat),4326)`,
modelled as a rational coordinate pair; `NULL` as `none`). -/
structure Tower where
  radio : Option String
  radio_norm : Option String
  geom : Option (ℚ × ℚ)
deriving DecidableEq

/-- The effect of the normalizing `UPDATE` on one row: rows whose
`radio_norm` is `NULL` get the `CASE` value, all other rows are
untouched (`WHERE radio_norm IS NULL`). -/
def applyRadioNorm (t : Tower) : Tower :=
  match t.radio_norm with
  | none => { t with radio_norm := some (radioNormCase t.radio) }
  | some _ => t

/-- The normalizing `UPDATE` applied to the whole towers table. -/
def normalizeRadioTable (tbl : List Tower) : List Tower := tbl.map applyRadioNorm

/-! ## Export stage (`src/etl/etl.py`, `run_psql_to_file` and the three
export queries)

Each export runs
`SELECT jsonb_build_object('type','FeatureCollection','features', jsonb_agg(jsonb_build_object('type','Feature','geometry', ST_AsGeoJSON(geom)::jsonb,'properties', to_jsonb(data) - 'geom')))::text FROM data`
and `run_psql_to_file` unconditionally writes the resulting single text
row to the output file.  `jsonb_agg` is an SQL aggregate: over zero
input rows it yields SQL `NULL`, not an empty array. -/

/-- JSON values as produced by the `jsonb_build_object` / `jsonb_agg`
export query (numbers as exact rationals). -/
inductive Json where
  | null : Json
  | str : String → Json
  | num : ℚ → Json
  | arr : List Json → Json
  | obj : List (String × Json) → Json

/-- SQL `jsonb_agg` over the rows of the `data` CTE: `NULL` when there
are zero rows, otherwise the array of the aggregated values. -/
def jsonbAgg (xs : List Json) : Json :=
  match xs with
  | [] => Json.null
  | _ => Json.arr xs

/-- One row of the export query's `data` CTE: the tile geometry (as the
GeoJSON value `ST_AsGeoJSON(geom)::jsonb`) and the remaining columns
(`to_jsonb(data) - 'geom'`). -/
structure ExportRow where
  geomJson : Json
  props : List (String × Json)

/-- The per-row `jsonb_build_object('type','Feature',...)`. -/
def featureOf (r : ExportRow) : Json :=
  Json.obj [("type", Json.str "Feature"), ("geometry", r.geomJson),
            ("properties", Json.obj r.props)]

/-- The whole exported document
`jsonb_build_object('type','FeatureCollection','features', jsonb_agg(...))`. -/
def featureCollection (rows : List ExportRow) : Json :=
  Json.obj [("type", Json.str "FeatureCollection"),
            ("features", jsonbAgg (rows.map featureOf))]

/-- The file written by `run_psql_to_file` for an export over the given
`data` rows: the file is always written (`Path(out_path).write_text`),
so the result is always `some` document. -/
def exportOutput (rows : List ExportRow) : Option Json :=
  some (featureCollection rows)

/-- Lookup of a top-level member of a JSON object (first binding wins,
as in `jsonb_build_object` output with distinct keys). -/
def jsonLookup (j : Json) : String → Option Json
  | k =>
    match j with
    | Json.obj kvs => (kvs.find? (fun kv => kv.1 == k)).map (·.2)
    | _ => none

/-! ## Aggregation stage (`src/etl/etl.py`, the analysis SQL block)

The Ookla bounding-box subset rows (`raw_mobile_q1_2024_bb`) carry a
non-null polygon geometry by construction (`WHERE o.geom IS NOT NULL`);
the polygon type, the spatial predicate `ST_Intersects`, the centroid
`ST_Centroid` and the spherical distance `ST_DistanceSphere` are
delegated to the database engine, so they appear here as parameters.
`ogc_fid` values are the table's primary key, so one tile per row and
`GROUP BY o.ogc_fid` is one group per subset row; `AVG(o.avg_d_kbps)`
over a group whose rows all carry the same `o` equals that tile's own
value (the left join guarantees at least one row per group). -/

/-- A row of the Ookla bounding-box subset table, restricted to the
columns the aggregation reads. -/
structure OoklaTile (P : Type) where
  ogc_fid : Nat
  geom : P
  avg_d_kbps : ℚ
  avg_u_kbps : ℚ

/-- The join condition `ST_Intersects(o.geom, t.geom)`: SQL `NULL`
geometry on the tower side makes the predicate non-true, so the tower
does not match. -/
def towerMatch {P : Type} (intersects : P → ℚ × ℚ → Bool) (o : OoklaTile P) (t : Tower) : Bool :=
  match t.geom with
  | some g => intersects o.geom g
  | none => false

/-- The rows the left join contributes for one subset tile: the matching
towers, or a single all-`NULL` tower row when none match. -/
def leftJoinTowers {P : Type} (intersects : P → ℚ × ℚ → Bool) (o : OoklaTile P)
    (ts : List Tower) : List (Option Tower) :=
  match ts.filter (towerMatch intersects o) with
  | [] => [none]
  | ms => ms.map some

/-- SQL `COUNT(t.*)` over the joined rows: counts only rows whose tower
record is not `NULL`. -/
def countStar (rows : List (Option Tower)) : Nat := (rows.filter Option.isSome).length

/-- SQL `SUM(CASE WHEN t.radio_norm='LTE' THEN 1 ELSE 0 END)` over the
joined rows: an all-`NULL` tower row contributes 0, as does a tower with
a `NULL` or non-`'LTE'` category. -/
def sumCaseLTE (rows : List (Option Tower)) : Nat :=
  rows.countP (fun r =>
    match r with
    | some t => t.radio_norm == some "LTE"
    | none => false)

/-- A row of `analysis.towers_per_tile`. -/
structure AggRow where
  tile_id : Nat
  towers_all : Nat
  avg_download_kbps : ℚ
  avg_upload_kbps : ℚ

/-- The `analysis.towers_per_tile` table: one row per subset tile, with
`COUNT(t.*)` over the spatial left join. -/
def towersPerTile {P : Type} (intersects : P → ℚ × ℚ → Bool)
    (tiles : List (OoklaTile P)) (ts : List Tower) : List AggRow :=
  tiles.map (fun o =>
    ⟨o.ogc_fid, countStar (leftJoinTowers intersects o ts), o.avg_d_kbps, o.avg_u_kbps⟩)

/-- A row of `analysis.towers_per_tile_lte`. -/
structure LteAggRow where
  tile_id : Nat
  towers_lte : Nat
  avg_download_kbps : ℚ
  avg_upload_kbps : ℚ

/-- The `analysis.towers_per_tile_lte` table: conditional summation over
the same spatial left join. -/
def towersPerTileLte {P : Type} (intersects : P → ℚ × ℚ → Bool)
    (tiles : List (OoklaTile P)) (ts : List Tower) : List LteAggRow :=
  tiles.map (fun o =>
    ⟨o.ogc_fid, sumCaseLTE (leftJoinTowers intersects o ts), o.avg_d_kbps, o.avg_u_kbps⟩)

/-- The `analysis.ookla_centroids` table: `(tile_id, ST_Centroid(geom))`. -/
def ooklaCentroids {P : Type} (centroid : P → ℚ × ℚ)
    (tiles : List (OoklaTile P)) : List (Nat × (ℚ × ℚ)) :=
  tiles.map (fun o => (o.ogc_fid, centroid o.geom))

/-- The `analysis.nearest_lte_distance` table:
`SELECT c.tile_id, MIN(ST_DistanceSphere(c.geom, t.geom)) FROM ookla_centroids c JOIN towers t ON t.radio_norm='LTE' GROUP BY c.tile_id`.
The join condition mentions no geometry, so each centroid pairs with
every LTE tower; a centroid has a group (and hence a row) exactly when
at least one LTE tower exists anywhere, and `MIN` skips `NULL` distances
(towers with `NULL` geometry). -/
def nearestLteDistance (dist : ℚ × ℚ → ℚ × ℚ → ℚ)
    (cs : List (Nat × (ℚ × ℚ))) (ts : List Tower) : List (Nat × Option ℚ) :=
  match ts.filter (fun t => t.radio_norm == some "LTE") with
  | [] => []
  | lte => cs.map (fun c =>
      (c.1, (lte.filterMap (fun t => t.geom.map (fun g => dist c.2 g))).min?))

/-- A row of `analysis.tile_lte_summary`. -/
structure LteSummaryRow where
  tile_id : Nat
  towers_lte : Nat
  avg_download_kbps : ℚ
  avg_upload_kbps : ℚ
  meters_to_nearest_lte : Option ℚ

/-- The `analysis.tile_lte_summary` table: the per-tile LTE counts
left-joined (`LEFT JOIN ... USING (tile_id)`) with the nearest-distance
table; a tile with no nearest-distance row keeps a `NULL` distance. -/
def tileLteSummary {P : Type} (intersects : P → ℚ × ℚ → Bool)
    (centroid : P → ℚ × ℚ) (dist : ℚ × ℚ → ℚ × ℚ → ℚ)
    (tiles : List (OoklaTile P)) (ts : List Tower) : List LteSummaryRow :=
  let near := nearestLteDistance dist (ooklaCentroids centroid tiles) ts
  (towersPerTileLte intersects tiles ts).map (fun l =>
    ⟨l.tile_id, l.towers_lte, l.avg_download_kbps, l.avg_upload_kbps,
     ((near.find? (fun d => d.1 == l.tile_id)).map (·.2)).join⟩)

/-! ## Harvester (`src/fetch_opencellid_barbados.py`)

The harvester walks a grid over the bounding box; per tile it asks a
count and, if positive, fetches `math.ceil(count / LIMIT)` pages at
offsets `0, LIMIT, 2*LIMIT, ...`.  Page text is split into lines,
blank lines dropped; the first non-empty page of the whole run supplies
the output header row; each page's remaining lines are written as data
rows.  Failures of the count or of a page fetch are caught and that
unit of work is skipped.  The output file is opened for writing once
for the whole run, so it exists (possibly empty) regardless of what is
fetched. -/

/-- The harvester's page size (`LIMIT = 50`). -/
def pageLIMIT : Nat := 50

/-- The number of pages fetched for a tile with a positive count:
`math.ceil(count / LIMIT)`, as exact natural-number ceiling division. -/
def pagesFor (n limit : Nat) : Nat := (n + limit - 1) / limit

/-- Python `str.strip()` emptiness: a line is blank when it consists
only of whitespace. -/
def isBlankLine (s : String) : Bool :=
  s.data.all (fun c => c ∈ ([' ', '\t', '\n', '\x0b', '\x0c', '\r'] : List Char))

/-- Observable state of one harvester run: whether/how often the header
row was written, the rows written to the output CSV (header included),
the data-row counter `total_rows_written`, and the offsets at which page
fetches were issued. -/
structure HarvestState where
  wroteHeader : Bool
  headerWrites : Nat
  out : List (List String)
  totalRows : Nat
  fetchLog : List Nat
deriving DecidableEq

/-- The state at the start of a run (`wrote_header = False`,
`total_rows_written = 0`, freshly truncated output file). -/
def initHarvestState : HarvestState := ⟨false, 0, [], 0, []⟩

/-- One iteration of the page loop at a given offset.  `res` is the
outcome of `get_page_csv`: `none` when the fetch raised (caught and
skipped), otherwise the response's lines.  Blank lines are dropped; an
empty result writes nothing; otherwise the first line becomes the header
if no header has been written yet in this run, and the remaining lines
are appended as data rows. -/
def processPage (st : HarvestState) (offset : Nat) (res : Option (List String)) : HarvestState :=
  let st0 := { st with fetchLog := st.fetchLog ++ [offset] }
  match res with
  | none => st0
  | some raw =>
    match raw.filter (fun l => !isBlankLine l) with
    | [] => st0
    | h :: rest =>
      let st1 :=
        if st0.wroteHeader then st0
        else { st0 with
                 wroteHeader := true
                 headerWrites := st0.headerWrites + 1
                 out := st0.out ++ [h.splitOn ","] }
      { st1 with
          out := st1.out ++ rest.map (fun r => r.splitOn ",")
          totalRows := st1.totalRows + rest.length }

/-- What the run observes for one grid tile: the outcome of the count
query (`none` when `get_size` raised and the tile is skipped) and the
outcome of each page fetch, indexed by page number. -/
structure TileInput where
  size : Option Nat
  page : Nat → Option (List String)

/-- Processing of one grid tile: nothing on a failed count query;
nothing when the count is 0; otherwise the page loop over
`range(math.ceil(count / limit))` with offsets stepping by `limit`. -/
def processTile (limit : Nat) (st : HarvestState) (t : TileInput) : HarvestState :=
  match t.size with
  | none => st
  | some n =>
    if 0 < n then
      (List.range (pagesFor n limit)).foldl (fun s i => processPage s (i * limit) (t.page i)) st
    else st

/-- A whole harvester run over the grid tiles in visiting order. -/
def harvestRun (limit : Nat) (tiles : List TileInput) : HarvestState :=
  tiles.foldl (processTile limit) initHarvestState

/-! ### Grid tiling

The source loops
```
lat = LAT_MIN
while lat < LAT_MAX:
    lat_top = min(lat + STEP_LAT, LAT_MAX)
    ...inner identical loop over lon...
    lat = lat_top
```
are embedded over `ℚ`.  For a non-positive step the Python loop would
not terminate; the embedding returns `[]` in that (never-claimed) case
by folding `0 < step` into the loop guard. -/

/-- The intervals `[lat, min(lat + step, hi)]` visited by one axis of
the grid walk. -/
def gridCuts (step lo hi : ℚ) : List (ℚ × ℚ) :=
  if _h : lo < hi ∧ 0 < step then
    (lo, min (lo + step) hi) :: gridCuts step (min (lo + step) hi) hi
  else []
termination_by (⌈(hi - lo) / step⌉).toNat
decreasing_by
  obtain ⟨hlt, hstep⟩ := _h
  rcases le_or_lt hi (lo + step) with hcase | hcase
  · have hz : (hi - min (lo + step) hi) / step = 0 := by
      rw [min_eq_right hcase, sub_self, zero_div]
    have h1 : (0 : ℚ) < (hi - lo) / step := div_pos (by linarith) hstep
    have h2 : 0 < ⌈(hi - lo) / step⌉ := Int.ceil_pos.mpr h1
    rw [hz, Int.ceil_zero]
    omega
  · have hkey : (hi - min (lo + step) hi) / step = (hi - lo) / step - 1 := by
      rw [min_eq_left hcase.le,
        show hi - (lo + step) = hi - lo - step by ring, sub_div, div_self hstep.ne']
    have h1 : (0 : ℚ) < (hi - lo) / step := div_pos (by linarith) hstep
    have h2 : 0 < ⌈(hi - lo) / step⌉ := Int.ceil_pos.mpr h1
    rw [hkey, Int.ceil_sub_one]
    omega

/-- The full 2D grid: the outer latitude loop runs the identical inner
longitude loop on every iteration, so the visited tiles are the product
of the two axis scans, in row-major order. -/
def gridTiles2D (stepLat stepLon latMin latMax lonMin lonMax : ℚ) :
    List ((ℚ × ℚ) × (ℚ × ℚ)) :=
  (gridCuts stepLat latMin latMax).flatMap (fun la =>
    (gridCuts stepLon lonMin lonMax).map (fun lo => (la, lo)))

/-! ## External process invocations

`src/etl/etl.py` (the psql-only pipeline) builds every psql command
without the password and passes it through the `PGPASSWORD` environment
variable of the child process.  `src/etl.py` (the docker/GDAL variant)
instead places the password on the launched command line: once as the
`docker exec -e PGPASSWORD=...` argument and once inside the `ogr2ogr`
PostgreSQL data-source string of the `docker run` command.  The
`ogr2ogr` command assembled by `import_ookla_parquet_if_missing` in
`src/etl/etl.py` also embeds the password in its argument list, but that
command is only echoed by `sh_show` and never executed. -/

/-- A launched external process: its argument vector and the value bound
to `PGPASSWORD` in its environment (if any). -/
structure ProcInvocation where
  argv : List String
  envPGPassword : Option String

/-- Does `pwd` occur (as a contiguous substring) in any element of the
argument vector? -/
def pwdInArgv (pwd : String) (argv : List String) : Bool := argv.any (containsStr pwd)

/-- The fixed literal arguments used by the psql invocations of
`src/etl/etl.py`. -/
def psqlFixedArgs : List String :=
  ["psql", "-h", "-p", "-d", "-U", "--no-password", "-v", "ON_ERROR_STOP=1", "-tA", "-c"]

/-- `run_psql_sql` of `src/etl/etl.py`: the psql argument vector (no
password among the arguments) plus `PGPASSWORD` in the environment. -/
def runPsqlSqlProc (host port db user pwd sql : String) : ProcInvocation :=
  ⟨["psql", "-h", host, "-p", port, "-d", db, "-U", user,
    "--no-password", "-v", "ON_ERROR_STOP=1", "-c", sql], some pwd⟩

/-- `run_psql_to_file` of `src/etl/etl.py` (adds `-tA`). -/
def runPsqlToFileProc (host port db user pwd sql : String) : ProcInvocation :=
  ⟨["psql", "-h", host, "-p", port, "-d", db, "-U", user,
    "--no-password", "-v", "ON_ERROR_STOP=1", "-tA", "-c", sql], some pwd⟩

/-- `pg_table_exists` of `src/etl/etl.py` (catalog probe via
`to_regclass`). -/
def pgTableExistsProc (host port db user pwd qualifiedTable : String) : ProcInvocation :=
  ⟨["psql", "-h", host, "-p", port, "-d", db, "-U", user, "--no-password", "-tA", "-c",
    "SELECT to_regclass('" ++ qualifiedTable ++ "') IS NOT NULL;"], some pwd⟩

/-- `run_psql_sql` of `src/etl.py` (the docker variant): the password is
interpolated into the `docker exec -e PGPASSWORD=...` argument of the
launched command. -/
def dockerPsqlProc (container db user password : String) : ProcInvocation :=
  ⟨["docker", "exec", "-e", "PGPASSWORD=" ++ password, "-i", container,
    "psql", "-U", user, "-d", db, "-v", "ON_ERROR_STOP=1"], none⟩

/-- The `docker run ... ogr2ogr` bulk import launched by `src/etl.py`
via `sh(...)`: the password is interpolated into the PostgreSQL
data-source argument. -/
def dockerOgrImportProc (dataDir fname gdalImage host port db user pwd
    towersSchema towersTable : String) : ProcInvocation :=
  ⟨["docker", "run", "--rm", "-v", dataDir ++ ":/data", "--network", "heatmapnet",
    gdalImage, "ogr2ogr", "-f", "PostgreSQL",
    "PG:host=" ++ host ++ " port=" ++ port ++ " dbname=" ++ db ++
      " user=" ++ user ++ " password=" ++ pwd,
    "/data/" ++ fname, "-nln", towersSchema ++ "." ++ towersTable, "-overwrite",
    "-oo", "HEADERS=YES", "-oo", "SEPARATOR=COMMA", "-oo", "AUTODETECT_TYPE=YES",
    "-oo", "X_POSSIBLE_NAMES=lon", "-oo", "Y_POSSIBLE_NAMES=lat",
    "-nlt", "POINT", "-a_srs", "EPSG:4326"], none⟩

/-! ## Pipeline control flow (`src/etl/etl.py`, `main`)

The run is a fixed linear sequence; the Ookla-dependent stages are gated
by `pg_table_exists` probes.  The catalog of existing tables is the
environment; the subset-build stage adds the bounding-box table to it.
A missing towers CSV raises `FileNotFoundError` (non-zero exit,
modelled as `Except.error`); otherwise the run ends with exit status 0
(`Except.ok`) carrying the executed-stage trace.  (The parquet import
helper only probes and echoes; it never changes table existence.) -/

/-- The stages and diagnostics of one `main` run. -/
inductive Stage where
  | parquetImportCheck : Stage
  | createTowersTable : Stage
  | loadTowersCsv : Stage
  | fixTowersGeom : Stage
  | buildOoklaSubset : Stage
  | normalizeRadio : Stage
  | buildAnalysisTables : Stage
  | exportGeojsonAll : Stage
  | completeMsg : Stage
  | skipOoklaMsg : Stage
  | skipAnalysisMsg : Stage
deriving DecidableEq

/-- The schema-catalog probe `SELECT to_regclass('<qualified>') IS NOT NULL`:
a lookup of the qualified name in the catalog of existing tables. -/
def pgTableExists (catalog : List String) (qualifiedTable : String) : Bool :=
  catalog.contains qualifiedTable

/-- The qualified name of the upstream Ookla base table (defaults
`OOKLA_SCHEMA.OOKLA_TABLE`). -/
def ooklaBaseTable : String := "ookla_tiles.raw_mobile_q1_2024"

/-- The qualified name of the bounding-box subset table. -/
def ooklaBBTable : String := "ookla_tiles.raw_mobile_q1_2024_bb"

/-- Control flow of `main` in `src/etl/etl.py` over a given catalog of
existing tables and towers-CSV existence, on the happy path of every
issued psql command (any failing command would abort fatally).
`Except.error` is a non-zero exit, `Except.ok tr` is exit status 0 with
the trace `tr` of executed stages and printed diagnostics. -/
def etlMain (catalog : List String) (csvExists : Bool) : Except String (List Stage) :=
  if !csvExists then
    Except.error "CSV not found inside this container"
  else
    let pre := [Stage.parquetImportCheck, Stage.createTowersTable,
                Stage.loadTowersCsv, Stage.fixTowersGeom]
    if pgTableExists catalog ooklaBaseTable then
      let catalogAfterSubset := ooklaBBTable :: catalog
      let steps := pre ++ [Stage.buildOoklaSubset, Stage.normalizeRadio]
      if pgTableExists catalogAfterSubset ooklaBBTable then
        Except.ok (steps ++ [Stage.buildAnalysisTables, Stage.exportGeojsonAll,
                             Stage.completeMsg])
      else
        Except.ok (steps ++ [Stage.skipAnalysisMsg])
    else
      Except.ok (pre ++ [Stage.skipOoklaMsg])

/-- The non-blank lines a page-fetch outcome contributes: nothing for a
failed fetch, otherwise the response's lines with blank lines dropped
(`[ln for ln in csv_text.splitlines() if ln.strip()]`). -/
def pageYield (res : Option (List String)) : List String :=
  match res with
  | none => []
  | some raw => raw.filter (fun l => !isBlankLine l)

/-- Invariant tying the header-write counter to the `wrote_header`
flag: the header has been written exactly once when the flag is set and
never otherwise. -/
def headerInv (st : HarvestState) : Prop :=
  st.headerWrites = if st.wroteHeader then 1 else 0

/-! ## Claims -/

/-- C1 (code behaviour at the failing input): when zero region-subset
units qualify for a category, the export query's `data` CTE is empty,
`jsonb_agg` returns SQL `NULL`, and the written document's `features`
member is a bare JSON `null` — not an empty list.  The file itself is
still written (`exportOutput` is `some`), so only the
"empty list, never a bare null" part of the claim fails on the code. -/
theorem C1_export_zero_rows_features_is_null :
    exportOutput [] =
      some (Json.obj [("type", Json.str "FeatureCollection"), ("features", Json.null)]) ∧
    jsonLookup (featureCollection []) "features" = some Json.null ∧
    jsonLookup (featureCollection []) "features" ≠ some (Json.arr []) := by
  refine ⟨rfl, rfl, ?_⟩
  intro hcontra
  rw [show jsonLookup (featureCollection []) "features" = some Json.null from rfl] at hcontra
  exact Json.noConfusion (Option.some.inj hcontra)

/-- C2 counterexample: the docker-based pipeline variant (`src/etl.py`)
launches its database client through `docker exec` with the password
interpolated into an argv element, and its bulk loader through
`docker run ... ogr2ogr` with the password inside the PostgreSQL
data-source argument — at the source's default configuration values the
password occurs on both launched command lines. -/
theorem C2_counterexample_password_on_cmdline :
    pwdInArgv "StrongPass123"
      (dockerPsqlProc "postgis_container" "geodb" "admin" "StrongPass123").argv = true ∧
    pwdInArgv "StrongPass123"
      (dockerOgrImportProc "/host/data" "opencellid_barbados_towers.csv"
        "ghcr.io/osgeo/gdal:ubuntu-full-latest" "postgis_container" "5432" "geodb"
        "admin" "StrongPass123" "cell_towers" "bb_towers").argv = true := by
  decide

/-- Helper: an `any` over argv is false when every element fails the
predicate. -/
theorem pwdInArgv_eq_false_of (pwd : String) (argv : List String)
    (h : ∀ a ∈ argv, containsStr pwd a = false) : pwdInArgv pwd argv = false := by
  rw [pwdInArgv, List.any_eq_false]
  intro a ha
  simp [h a ha]

/-- C2 (amended): every psql process launched by the psql-only pipeline
(`src/etl/etl.py`) gets the password through the `PGPASSWORD`
environment variable, and the password occurs nowhere in the launched
argv unless it textually occurs in another connection parameter, the
SQL text, or one of psql's fixed literal arguments. -/
theorem C2_psql_password_env_only (host port db user pwd sql qt : String)
    (h : ∀ s ∈ psqlFixedArgs ++
        [host, port, db, user, sql,
         "SELECT to_regclass('" ++ qt ++ "') IS NOT NULL;"],
      containsStr pwd s = false) :
    (runPsqlSqlProc host port db user pwd sql).envPGPassword = some pwd ∧
    (runPsqlToFileProc host port db user pwd sql).envPGPassword = some pwd ∧
    (pgTableExistsProc host port db user pwd qt).envPGPassword = some pwd ∧
    pwdInArgv pwd (runPsqlSqlProc host port db user pwd sql).argv = false ∧
    pwdInArgv pwd (runPsqlToFileProc host port db user pwd sql).argv = false ∧
    pwdInArgv pwd (pgTableExistsProc host port db user pwd qt).argv = false := by
  refine ⟨rfl, rfl, rfl, ?_, ?_, ?_⟩
  · apply pwdInArgv_eq_false_of
    intro a ha
    apply h
    fin_cases ha <;> simp [psqlFixedArgs]
  · apply pwdInArgv_eq_false_of
    intro a ha
    apply h
    fin_cases ha <;> simp [psqlFixedArgs]
  · apply pwdInArgv_eq_false_of
    intro a ha
    apply h
    fin_cases ha <;> simp [psqlFixedArgs]

/-- Witness for C2's amended theorem at the source's default
configuration values. -/
theorem C2_psql_password_env_only_witness :
    (runPsqlSqlProc "db" "5432" "geodb" "admin" "StrongPass123"
      "CREATE EXTENSION IF NOT EXISTS postgis;").envPGPassword = some "StrongPass123" ∧
    pwdInArgv "StrongPass123"
      (runPsqlSqlProc "db" "5432" "geodb" "admin" "StrongPass123"
        "CREATE EXTENSION IF NOT EXISTS postgis;").argv = false ∧
    pwdInArgv "StrongPass123"
      (pgTableExistsProc "db" "5432" "geodb" "admin" "StrongPass123"
        "ookla_tiles.raw_mobile_q1_2024").argv = false := by
  have h := C2_psql_password_env_only "db" "5432" "geodb" "admin" "StrongPass123"
    "CREATE EXTENSION IF NOT EXISTS postgis;" "ookla_tiles.raw_mobile_q1_2024"
    (by decide)
  exact ⟨h.1, h.2.2.2.1, h.2.2.2.2.2⟩

/-- C3: for every entity row whose canonical-category value is null, the
normalizer assigns the `CASE` value computed from the upper-cased raw
label by testing the ordered pattern rules and taking the first match
(5G first, then LTE, then 3G, then 2G, fallback `'OTHER'`); in
particular `"HSPA+"` maps to `"3G"`, `"NR5G"` to `"5G"`, and `"FOO"` to
the fallback `"OTHER"`. -/
theorem C3_category_normalizer (t : Tower) (h : t.radio_norm = none) :
    (applyRadioNorm t).radio_norm = some (radioNormCase t.radio) ∧
    (matches5G (upperString (t.radio.getD "")) = true →
      radioNormCase t.radio = "5G") ∧
    (matches5G (upperString (t.radio.getD "")) = false →
      containsStr "LTE" (upperString (t.radio.getD "")) = true →
      radioNormCase t.radio = "LTE") ∧
    (matches5G (upperString (t.radio.getD "")) = false →
      containsStr "LTE" (upperString (t.radio.getD "")) = false →
      upperString (t.radio.getD "") ∈ (["UMTS", "WCDMA", "HSPA", "HSPA+", "3G"] : List String) →
      radioNormCase t.radio = "3G") ∧
    (matches5G (upperString (t.radio.getD "")) = false →
      containsStr "LTE" (upperString (t.radio.getD "")) = false →
      upperString (t.radio.getD "") ∉ (["UMTS", "WCDMA", "HSPA", "HSPA+", "3G"] : List String) →
      upperString (t.radio.getD "") ∈ (["GSM", "EDGE", "2G"] : List String) →
      radioNormCase t.radio = "2G") ∧
    (matches5G (upperString (t.radio.getD "")) = false →
      containsStr "LTE" (upperString (t.radio.getD "")) = false →
      upperString (t.radio.getD "") ∉ (["UMTS", "WCDMA", "HSPA", "HSPA+", "3G"] : List String) →
      upperString (t.radio.getD "") ∉ (["GSM", "EDGE", "2G"] : List String) →
      radioNormCase t.radio = "OTHER") ∧
    radioNormCase (some "HSPA+") = "3G" ∧
    radioNormCase (some "NR5G") = "5G" ∧
    radioNormCase (some "FOO") = "OTHER" := by
  refine ⟨?_, ?_, ?_, ?_, ?_, ?_, by decide, by decide, by decide⟩
  · simp [applyRadioNorm, h]
  · intro h5
    simp [radioNormCase, h5]
  · intro h5 hl
    simp [radioNormCase, h5, hl]
  · intro h5 hl h3
    simp [radioNormCase, h5, hl, h3]
  · intro h5 hl h3 h2
    simp [radioNormCase, h5, hl, h3, h2]
  · intro h5 hl h3 h2
    simp [radioNormCase, h5, hl, h3, h2]

/-- Witness for C3 at the three labels named by the claim. -/
theorem C3_category_normalizer_witness :
    radioNormCase (some "HSPA+") = "3G" ∧
    radioNormCase (some "NR5G") = "5G" ∧
    radioNormCase (some "FOO") = "OTHER" ∧
    (applyRadioNorm ⟨some "HSPA+", none, none⟩).radio_norm = some "3G" := by
  have h := C3_category_normalizer ⟨some "HSPA+", none, none⟩ rfl
  exact ⟨h.2.2.2.2.2.2.1, h.2.2.2.2.2.2.2.1, h.2.2.2.2.2.2.2.2, h.1.trans (by decide)⟩

/-- C4: the category normalizer is idempotent — running the update twice
yields the same table as running it once, and the update leaves every
already-labeled row untouched. -/
theorem C4_normalizer_idempotent :
    (∀ tbl : List Tower, normalizeRadioTable (normalizeRadioTable tbl) = normalizeRadioTable tbl) ∧
    (∀ t : Tower, t.radio_norm ≠ none → applyRadioNorm t = t) := by
  have key : ∀ t : Tower, applyRadioNorm (applyRadioNorm t) = applyRadioNorm t := by
    intro t
    cases h : t.radio_norm with
    | none => simp [applyRadioNorm, h]
    | some v => simp [applyRadioNorm, h]
  constructor
  · intro tbl
    induction tbl with
    | nil => rfl
    | cons a l ih =>
      simp only [normalizeRadioTable, List.map_cons] at *
      rw [key a, ih]
  · intro t ht
    cases h : t.radio_norm with
    | none => exact absurd h ht
    | some v => simp [applyRadioNorm, h]

/-- Witness for C4: a second run is the identity on a freshly normalized
one-row table, and the update is the identity on an already-labeled row. -/
theorem C4_normalizer_idempotent_witness :
    normalizeRadioTable (normalizeRadioTable [⟨some "LTE", none, none⟩]) =
      normalizeRadioTable [⟨some "LTE", none, none⟩] ∧
    applyRadioNorm ⟨some "GSM", some "2G", none⟩ = ⟨some "GSM", some "2G", none⟩ :=
  ⟨C4_normalizer_idempotent.1 [⟨some "LTE", none, none⟩],
   C4_normalizer_idempotent.2 ⟨some "GSM", some "2G", none⟩ (by decide)⟩

/-- C5: a region-subset unit that intersects zero tower entities still
gets a row in `analysis.towers_per_tile`, and its `towers_all` count is
exactly 0 — the left join contributes a single all-null tower row and
`COUNT(t.*)` counts none of it. -/
theorem C5_zero_intersections_count_zero {P : Type} (intersects : P → ℚ × ℚ → Bool)
    (tiles : List (OoklaTile P)) (ts : List Tower) (o : OoklaTile P)
    (ho : o ∈ tiles) (hnone : ∀ t ∈ ts, towerMatch intersects o t = false) :
    leftJoinTowers intersects o ts = [none] ∧
    countStar (leftJoinTowers intersects o ts) = 0 ∧
    (⟨o.ogc_fid, 0, o.avg_d_kbps, o.avg_u_kbps⟩ : AggRow) ∈ towersPerTile intersects tiles ts := by
  have hfil : ts.filter (towerMatch intersects o) = [] := by
    rw [List.filter_eq_nil_iff]
    intro a ha
    simp [hnone a ha]
  have hlj : leftJoinTowers intersects o ts = [none] := by
    rw [leftJoinTowers, hfil]
  have hcount : countStar (leftJoinTowers intersects o ts) = 0 := by
    rw [hlj]
    rfl
  refine ⟨hlj, hcount, ?_⟩
  simp only [towersPerTile, List.mem_map]
  exact ⟨o, ho, by rw [hcount]⟩

/-- Witness for C5: a concrete one-tile, one-tower instance where the
spatial predicate never holds. -/
theorem C5_zero_intersections_count_zero_witness :
    countStar (leftJoinTowers (fun (_ : Unit) _ => false) ⟨7, (), 10, 20⟩
      [⟨some "LTE", some "LTE", some (0, 0)⟩]) = 0 ∧
    (⟨7, 0, 10, 20⟩ : AggRow) ∈ towersPerTile (fun (_ : Unit) _ => false)
      [⟨7, (), 10, 20⟩] [⟨some "LTE", some "LTE", some (0, 0)⟩] := by
  have h := C5_zero_intersections_count_zero (fun (_ : Unit) _ => false)
    [⟨7, (), 10, 20⟩] [⟨some "LTE", some "LTE", some (0, 0)⟩] ⟨7, (), 10, 20⟩
    (by simp) (by decide)
  exact ⟨h.2.1, h.2.2⟩

/-- C6: when zero entities of the target category (LTE) exist anywhere
in the towers table, the nearest-distance table is empty (every unit is
absent from it), yet every unit is still present in the final
per-category summary, with a null nearest-distance value. -/
theorem C6_no_lte_null_distance {P : Type} (intersects : P → ℚ × ℚ → Bool)
    (centroid : P → ℚ × ℚ) (dist : ℚ × ℚ → ℚ × ℚ → ℚ)
    (tiles : List (OoklaTile P)) (ts : List Tower)
    (h : ts.filter (fun t => t.radio_norm == some "LTE") = []) :
    nearestLteDistance dist (ooklaCentroids centroid tiles) ts = [] ∧
    (tileLteSummary intersects centroid dist tiles ts).map (·.tile_id) =
      tiles.map (·.ogc_fid) ∧
    ∀ r ∈ tileLteSummary intersects centroid dist tiles ts,
      r.meters_to_nearest_lte = none := by
  have hnear : nearestLteDistance dist (ooklaCentroids centroid tiles) ts = [] := by
    rw [nearestLteDistance, h]
  refine ⟨hnear, ?_, ?_⟩
  · simp [tileLteSummary, hnear, towersPerTileLte, List.map_map, Function.comp]
  · intro r hr
    simp only [tileLteSummary, hnear] at hr
    obtain ⟨l, hl, rfl⟩ := List.mem_map.mp hr
    rfl

/-- Witness for C6: a concrete instance with one tile and one non-LTE
tower. -/
theorem C6_no_lte_null_distance_witness :
    nearestLteDistance (fun _ _ => 0)
      (ooklaCentroids (fun (_ : Unit) => (0, 0)) [⟨3, (), 1, 2⟩])
      [⟨some "GSM", some "2G", some (0, 0)⟩] = [] ∧
    (tileLteSummary (fun (_ : Unit) _ => false) (fun _ => (0, 0)) (fun _ _ => 0)
      [⟨3, (), 1, 2⟩] [⟨some "GSM", some "2G", some (0, 0)⟩]).map (·.tile_id) = [3] := by
  have h := C6_no_lte_null_distance (fun (_ : Unit) _ => false) (fun _ => (0, 0))
    (fun _ _ => 0) [⟨3, (), 1, 2⟩] [⟨some "GSM", some "2G", some (0, 0)⟩] (by decide)
  exact ⟨h.1, h.2.1.trans (by decide)⟩

/-- C9: when the upstream Ookla base table is absent from the schema
catalog, `main` skips the region subsetter and everything depending on
it (normalizer-of-radio step inside the gated block, analysis, exports),
prints the skip diagnostic, and the run still ends with exit status zero
(`Except.ok`). -/
theorem C9_missing_base_table_skips (catalog : List String) (csvExists : Bool)
    (hcsv : csvExists = true)
    (hbase : pgTableExists catalog ooklaBaseTable = false) :
    etlMain catalog csvExists =
      Except.ok [Stage.parquetImportCheck, Stage.createTowersTable,
                 Stage.loadTowersCsv, Stage.fixTowersGeom, Stage.skipOoklaMsg] ∧
    ∃ tr, etlMain catalog csvExists = Except.ok tr ∧
      Stage.skipOoklaMsg ∈ tr ∧
      Stage.buildOoklaSubset ∉ tr ∧
      Stage.buildAnalysisTables ∉ tr ∧
      Stage.exportGeojsonAll ∉ tr := by
  subst hcsv
  have h1 : etlMain catalog true =
      Except.ok [Stage.parquetImportCheck, Stage.createTowersTable,
                 Stage.loadTowersCsv, Stage.fixTowersGeom, Stage.skipOoklaMsg] := by
    simp [etlMain, hbase]
  exact ⟨h1, _, h1, by decide, by decide, by decide, by decide⟩

/-- Witness for C9 on the empty catalog. -/
theorem C9_missing_base_table_skips_witness :
    etlMain [] true =
      Except.ok [Stage.parquetImportCheck, Stage.createTowersTable,
                 Stage.loadTowersCsv, Stage.fixTowersGeom, Stage.skipOoklaMsg] :=
  (C9_missing_base_table_skips [] true rfl (by decide)).1

/-- Each page-loop iteration logs exactly its fetch offset, whatever the
fetch returned. -/
theorem processPage_fetchLog (st : HarvestState) (off : Nat) (res : Option (List String)) :
    (processPage st off res).fetchLog = st.fetchLog ++ [off] := by
  cases res with
  | none => rfl
  | some raw =>
    unfold processPage
    split
    · rfl
    · cases hw : st.wroteHeader <;> simp [hw] <;> split <;> rfl

/-- The page loop over a list of page indices logs the offsets
`i * limit` in order. -/
theorem pageLoop_fetchLog (limit : Nat) (t : TileInput) (l : List Nat) :
    ∀ st : HarvestState,
      ((l.foldl (fun s i => processPage s (i * limit) (t.page i)) st).fetchLog) =
        st.fetchLog ++ l.map (· * limit) := by
  induction l with
  | nil => intro st; simp
  | cons a l ih =>
    intro st
    simp only [List.foldl_cons, List.map_cons]
    rw [ih, processPage_fetchLog]
    simp

/-- A well-formed page (header plus data rows, all non-blank) adds
exactly its data-row count to `total_rows_written`. -/
theorem processPage_totalRows (st : HarvestState) (off : Nat) (hd : String)
    (rows : List String) (hall : ∀ l ∈ hd :: rows, isBlankLine l = false) :
    (processPage st off (some (hd :: rows))).totalRows = st.totalRows + rows.length := by
  have hfil : (hd :: rows).filter (fun l => !isBlankLine l) = hd :: rows := by
    rw [List.filter_eq_self]
    intro a ha
    simp [hall a ha]
  simp only [processPage, hfil]
  cases hw : st.wroteHeader <;> simp [hw]

/-- The page loop adds the sum of the per-page data-row counts to
`total_rows_written`, provided every visited page is well-formed. -/
theorem pageLoop_totalRows (limit : Nat) (t : TileInput) (f : Nat → Nat) (l : List Nat) :
    ∀ st : HarvestState,
      (∀ i ∈ l, ∃ hd rows, t.page i = some (hd :: rows) ∧
        (∀ s ∈ hd :: rows, isBlankLine s = false) ∧ rows.length = f i) →
      (l.foldl (fun s i => processPage s (i * limit) (t.page i)) st).totalRows =
        st.totalRows + (l.map f).sum := by
  induction l with
  | nil => intro st _; simp
  | cons a l ih =>
    intro st h
    obtain ⟨hd, rows, hp, hbl, hlen⟩ := h a (List.mem_cons_self a l)
    simp only [List.foldl_cons, List.map_cons, List.sum_cons]
    rw [ih _ (fun i hi => h i (List.mem_cons_of_mem a hi)), hp,
      processPage_totalRows _ _ _ _ hbl, hlen]
    omega

/-- Summing `min limit (n - i * limit)` over the first `p` page indices
gives `min n (p * limit)`. -/
theorem sum_min_pages (limit n p : Nat) :
    ((List.range p).map (fun i => min limit (n - i * limit))).sum = min n (p * limit) := by
  induction p with
  | zero => simp
  | succ p ih =>
    rw [List.range_succ, List.map_append, List.sum_append, ih, Nat.succ_mul]
    simp only [List.map_cons, List.map_nil, List.sum_cons, List.sum_nil, Nat.add_zero]
    generalize p * limit = A
    omega

/-- Characterization of the page count `⌈n / limit⌉`: it is large enough
to cover `n` rows and (for positive `n`) not one page too large. -/
theorem pagesFor_spec (n limit : Nat) (hl : 0 < limit) :
    n ≤ pagesFor n limit * limit ∧
    (0 < n → (pagesFor n limit - 1) * limit < n) ∧
    (0 < n → 1 ≤ pagesFor n limit) := by
  have hq := Nat.div_add_mod (n + limit - 1) limit
  have hmlt : (n + limit - 1) % limit < limit := Nat.mod_lt _ hl
  have hcomm : limit * ((n + limit - 1) / limit) = (n + limit - 1) / limit * limit :=
    Nat.mul_comm _ _
  have hsub : ((n + limit - 1) / limit - 1) * limit =
      (n + limit - 1) / limit * limit - limit := by
    rw [Nat.sub_mul, one_mul]
  have hone : 0 < n → 1 ≤ (n + limit - 1) / limit := fun hn =>
    (Nat.one_le_div_iff hl).mpr (by omega)
  unfold pagesFor
  refine ⟨by omega, fun hn => ?_, hone⟩
  have h1 := hone hn
  omega

/-- C7: a tile reporting count `n > 0` triggers exactly
`ceil(n / limit)` page fetches, at offsets `0, limit, 2*limit, ...` in
strictly increasing order, and — when every fetched page is one header
line followed by its data rows — exactly `n` data rows are written. -/
theorem C7_pagination (limit n : Nat) (t : TileInput) (st : HarvestState)
    (hl : 0 < limit) (hsize : t.size = some n) (hn : 0 < n)
    (hpages : ∀ i < pagesFor n limit, ∃ hd rows, t.page i = some (hd :: rows) ∧
        (∀ s ∈ hd :: rows, isBlankLine s = false) ∧
        rows.length = min limit (n - i * limit)) :
    (processTile limit st t).fetchLog =
      st.fetchLog ++ (List.range (pagesFor n limit)).map (· * limit) ∧
    ((List.range (pagesFor n limit)).map (· * limit)).length = pagesFor n limit ∧
    n ≤ pagesFor n limit * limit ∧
    (pagesFor n limit - 1) * limit < n ∧
    ((List.range (pagesFor n limit)).map (· * limit)).Pairwise (· < ·) ∧
    (processTile limit st t).totalRows = st.totalRows + n := by
  have hspec := pagesFor_spec n limit hl
  have hproc : processTile limit st t =
      (List.range (pagesFor n limit)).foldl
        (fun s i => processPage s (i * limit) (t.page i)) st := by
    simp [processTile, hsize, hn]
  refine ⟨?_, by simp, hspec.1, hspec.2.1 hn, ?_, ?_⟩
  · rw [hproc, pageLoop_fetchLog]
  · refine List.Pairwise.map _ ?_ (List.pairwise_lt_range _)
    intro a b hab
    exact (Nat.mul_lt_mul_right hl).mpr hab
  · rw [hproc,
      pageLoop_totalRows limit t (fun i => min limit (n - i * limit)) _ st
        (fun i hi => hpages i (List.mem_range.mp hi)),
      sum_min_pages, Nat.min_eq_left hspec.1]

/-- Witness for C7: a tile with count 3 and page size 2 fetches pages at
offsets 0 and 2 and writes 3 data rows. -/
theorem C7_pagination_witness :
    (processTile 2 initHarvestState
      ⟨some 3, fun i => if i = 0 then some ["h", "r1", "r2"] else some ["h", "r3"]⟩).totalRows
      = 3 ∧
    (processTile 2 initHarvestState
      ⟨some 3, fun i => if i = 0 then some ["h", "r1", "r2"] else some ["h", "r3"]⟩).fetchLog
      = [0, 2] := by
  have h := C7_pagination 2 3
    ⟨some 3, fun i => if i = 0 then some ["h", "r1", "r2"] else some ["h", "r3"]⟩
    initHarvestState (by decide) rfl (by decide) ?_
  · exact ⟨h.2.2.2.2.2.trans (by decide), h.1.trans (by decide)⟩
  · intro i hi
    have h2 : pagesFor 3 2 = 2 := rfl
    rw [h2] at hi
    interval_cases i
    · exact ⟨"h", ["r1", "r2"], rfl, by decide, by decide⟩
    · exact ⟨"h", ["r3"], rfl, by decide, by decide⟩

/-- Each page-loop iteration preserves the header-write invariant. -/
theorem processPage_headerInv (st : HarvestState) (off : Nat)
    (res : Option (List String)) (h : headerInv st) :
    headerInv (processPage st off res) := by
  cases res with
  | none => exact h
  | some raw =>
    unfold headerInv at h ⊢
    unfold processPage
    cases hw : st.wroteHeader
    · simp only [hw, if_false, Bool.false_eq_true] at h
      simp [hw, h]
      split <;> simp
    · simp only [hw, if_true] at h
      simp [hw, h]
      split <;> simp
/-- A page contributing no non-blank lines leaves everything but the
fetch log unchanged. -/
theorem processPage_empty_yield (st : HarvestState) (off : Nat)
    (res : Option (List String)) (h : pageYield res = []) :
    (processPage st off res).out = st.out ∧
    (processPage st off res).headerWrites = st.headerWrites ∧
    (processPage st off res).totalRows = st.totalRows ∧
    (processPage st off res).wroteHeader = st.wroteHeader := by
  cases res with
  | none => exact ⟨rfl, rfl, rfl, rfl⟩
  | some raw =>
    simp only [pageYield] at h
    simp only [processPage]
    rw [h]
    exact ⟨rfl, rfl, rfl, rfl⟩

/-- The page loop preserves the header-write invariant. -/
theorem pageLoop_headerInv (limit : Nat) (t : TileInput) (l : List Nat) :
    ∀ st : HarvestState, headerInv st →
      headerInv (l.foldl (fun s i => processPage s (i * limit) (t.page i)) st) := by
  induction l with
  | nil => intro st h; exact h
  | cons a l ih => intro st h; exact ih _ (processPage_headerInv _ _ _ h)

/-- Tile processing preserves the header-write invariant. -/
theorem processTile_headerInv (limit : Nat) (st : HarvestState) (t : TileInput)
    (h : headerInv st) : headerInv (processTile limit st t) := by
  rcases hs : t.size with _ | n
  · simpa [processTile, hs] using h
  · by_cases hn : 0 < n
    · simp only [processTile, hs, if_pos hn]
      exact pageLoop_headerInv limit t _ st h
    · simpa [processTile, hs, hn] using h

/-- A whole run satisfies the header-write invariant. -/
theorem harvestRun_headerInv (limit : Nat) (tiles : List TileInput) :
    headerInv (harvestRun limit tiles) := by
  have aux : ∀ (l : List TileInput) (st : HarvestState), headerInv st →
      headerInv (l.foldl (processTile limit) st) := by
    intro l
    induction l with
    | nil => intro st h; exact h
    | cons a l ih => intro st h; exact ih _ (processTile_headerInv limit st a h)
  exact aux tiles initHarvestState (by rfl)

/-- The page loop writes nothing when every visited page yields no
non-blank lines. -/
theorem pageLoop_empty_yield (limit : Nat) (t : TileInput) (l : List Nat) :
    ∀ st : HarvestState, (∀ i ∈ l, pageYield (t.page i) = []) →
      (l.foldl (fun s i => processPage s (i * limit) (t.page i)) st).out = st.out ∧
      (l.foldl (fun s i => processPage s (i * limit) (t.page i)) st).headerWrites = st.headerWrites ∧
      (l.foldl (fun s i => processPage s (i * limit) (t.page i)) st).totalRows = st.totalRows := by
  induction l with
  | nil => intro st _; exact ⟨rfl, rfl, rfl⟩
  | cons a l ih =>
    intro st h
    have hstep := processPage_empty_yield st (a * limit) (t.page a) (h a (List.mem_cons_self a l))
    have hrest := ih (processPage st (a * limit) (t.page a))
      (fun i hi => h i (List.mem_cons_of_mem a hi))
    simp only [List.foldl_cons]
    exact ⟨hrest.1.trans hstep.1, hrest.2.1.trans hstep.2.1, hrest.2.2.trans hstep.2.2.1⟩

/-- Tile processing writes nothing when every page of the tile yields no
non-blank lines. -/
theorem processTile_empty_yield (limit : Nat) (st : HarvestState) (t : TileInput)
    (h : ∀ i, pageYield (t.page i) = []) :
    (processTile limit st t).out = st.out ∧
    (processTile limit st t).headerWrites = st.headerWrites ∧
    (processTile limit st t).totalRows = st.totalRows := by
  rcases hs : t.size with _ | n
  · simp [processTile, hs]
  · by_cases hn : 0 < n
    · simp only [processTile, hs, if_pos hn]
      exact pageLoop_empty_yield limit t _ st (fun i _ => h i)
    · simp [processTile, hs, hn]

/-- C10: the output header row is written at most once per run; and a
run in which no page ever yields a non-blank line (every tile counts 0,
or every fetch fails or returns only blank lines) produces an output
file that exists but is completely empty — no header row at all and no
data rows. -/
theorem C10_header_at_most_once_empty_run (limit : Nat) (tiles : List TileInput) :
    (harvestRun limit tiles).headerWrites ≤ 1 ∧
    ((∀ t ∈ tiles, ∀ i, pageYield (t.page i) = []) →
      (harvestRun limit tiles).out = [] ∧
      (harvestRun limit tiles).headerWrites = 0 ∧
      (harvestRun limit tiles).totalRows = 0) := by
  constructor
  · have h := harvestRun_headerInv limit tiles
    unfold headerInv at h
    rw [h]
    split <;> omega
  · intro hall
    have aux : ∀ (l : List TileInput) (st : HarvestState),
        (∀ t ∈ l, ∀ i, pageYield (t.page i) = []) →
        (l.foldl (processTile limit) st).out = st.out ∧
        (l.foldl (processTile limit) st).headerWrites = st.headerWrites ∧
        (l.foldl (processTile limit) st).totalRows = st.totalRows := by
      intro l
      induction l with
      | nil => intro st _; exact ⟨rfl, rfl, rfl⟩
      | cons a l ih =>
        intro st h
        have hstep := processTile_empty_yield limit st a (h a (List.mem_cons_self a l))
        have hrest := ih (processTile limit st a)
          (fun u hu i => h u (List.mem_cons_of_mem a hu) i)
        simp only [List.foldl_cons]
        exact ⟨hrest.1.trans hstep.1, hrest.2.1.trans hstep.2.1, hrest.2.2.trans hstep.2.2⟩
    exact aux tiles initHarvestState hall

/-- Witness for C10: a run over three tiles — a failing count, pages
that always fail, and pages of only blank lines — leaves the output
completely empty. -/
theorem C10_header_at_most_once_empty_run_witness :
    (harvestRun 50 [⟨some 3, fun _ => none⟩, ⟨none, fun _ => none⟩,
      ⟨some 120, fun _ => some ["", " "]⟩]).headerWrites ≤ 1 ∧
    (harvestRun 50 [⟨some 3, fun _ => none⟩, ⟨none, fun _ => none⟩,
      ⟨some 120, fun _ => some ["", " "]⟩]).out = [] := by
  have h := C10_header_at_most_once_empty_run 50
    [⟨some 3, fun _ => none⟩, ⟨none, fun _ => none⟩, ⟨some 120, fun _ => some ["", " "]⟩]
  refine ⟨h.1, (h.2 ?_).1⟩
  intro t ht i
  fin_cases ht <;> rfl

/-- The loop variant of the grid walk: the number of remaining
iterations, `⌈(hi - lo) / step⌉`, strictly decreases when the loop body
advances `lo` to `min (lo + step) hi`. -/
theorem gridMeasure_decr (step lo hi : ℚ) (hlt : lo < hi) (hstep : 0 < step) :
    (⌈(hi - min (lo + step) hi) / step⌉).toNat < (⌈(hi - lo) / step⌉).toNat := by
  rcases le_or_lt hi (lo + step) with hcase | hcase
  · have hz : (hi - min (lo + step) hi) / step = 0 := by
      rw [min_eq_right hcase, sub_self, zero_div]
    have h1 : (0 : ℚ) < (hi - lo) / step := div_pos (by linarith) hstep
    have h2 : 0 < ⌈(hi - lo) / step⌉ := Int.ceil_pos.mpr h1
    rw [hz, Int.ceil_zero]
    omega
  · have hkey : (hi - min (lo + step) hi) / step = (hi - lo) / step - 1 := by
      rw [min_eq_left hcase.le,
        show hi - (lo + step) = hi - lo - step by ring, sub_div, div_self hstep.ne']
    have h1 : (0 : ℚ) < (hi - lo) / step := div_pos (by linarith) hstep
    have h2 : 0 < ⌈(hi - lo) / step⌉ := Int.ceil_pos.mpr h1
    rw [hkey, Int.ceil_sub_one]
    omega

/-- Every interval the axis walk produces sits inside `[lo, hi]`, is
non-degenerate, and has length at most `step`. -/
theorem gridCuts_sound (step lo hi : ℚ) :
    ∀ c ∈ gridCuts step lo hi,
      lo ≤ c.1 ∧ c.1 < c.2 ∧ c.2 - c.1 ≤ step ∧ c.2 ≤ hi := by
  intro c hc
  rw [gridCuts] at hc
  split at hc
  · next h =>
    obtain ⟨hlt, hstep⟩ := h
    rcases List.mem_cons.mp hc with hceq | hc'
    · subst hceq
      refine ⟨le_refl lo, lt_min (by linarith) hlt, ?_, min_le_right _ _⟩
      have h1 := min_le_left (lo + step) hi
      simp only []
      linarith
    · have ih := gridCuts_sound step (min (lo + step) hi) hi c hc'
      exact ⟨le_trans (le_min (by linarith) hlt.le) ih.1, ih.2.1, ih.2.2.1, ih.2.2.2⟩
  · simp at hc
termination_by (⌈(hi - lo) / step⌉).toNat
decreasing_by
  have hlt2 : lo < hi := by assumption
  have hstep2 : 0 < step := by assumption
  exact gridMeasure_decr step lo hi hlt2 hstep2

/-- Every point of `[lo, hi]` lies in some interval of the axis walk
(no gaps; together with `gridCuts_sound`, the union of the intervals is
exactly `[lo, hi]`). -/
theorem gridCuts_cover (step lo hi : ℚ) (hstep : 0 < step) :
    ∀ x : ℚ, lo ≤ x → x ≤ hi → lo < hi →
      ∃ c ∈ gridCuts step lo hi, c.1 ≤ x ∧ x ≤ c.2 := by
  intro x hlox hxhi hlt
  rw [gridCuts, dif_pos ⟨hlt, hstep⟩]
  by_cases hx : x ≤ min (lo + step) hi
  · exact ⟨(lo, min (lo + step) hi), List.mem_cons_self _ _, hlox, hx⟩
  · push_neg at hx
    have hmlt : min (lo + step) hi < hi := lt_of_lt_of_le hx hxhi
    obtain ⟨c, hc, h1, h2⟩ :=
      gridCuts_cover step (min (lo + step) hi) hi hstep x hx.le hxhi hmlt
    exact ⟨c, List.mem_cons_of_mem _ hc, h1, h2⟩
termination_by (⌈(hi - lo) / step⌉).toNat
decreasing_by
  have hlt2 : lo < hi := by assumption
  have hstep2 : 0 < step := by assumption
  exact gridMeasure_decr step lo hi hlt2 hstep2

/-- The first interval of the axis walk, when one exists, starts at
`lo`. -/
theorem gridCuts_head_start (step lo hi : ℚ) :
    ∀ c, (gridCuts step lo hi).head? = some c → c.1 = lo := by
  intro c hc
  rw [gridCuts] at hc
  split at hc
  · simp only [List.head?_cons, Option.some.injEq] at hc
    rw [← hc]
  · simp at hc

/-- Adjacent intervals of the axis walk share an endpoint: each
interval's upper bound is the next interval's lower bound (no gaps and
no overlap between consecutive tiles). -/
theorem gridCuts_chain (step lo hi : ℚ) :
    List.Chain' (fun a b : ℚ × ℚ => a.2 = b.1) (gridCuts step lo hi) := by
  rw [gridCuts]
  split
  · next h =>
    obtain ⟨hlt, hstep⟩ := h
    apply List.chain'_cons'.mpr
    refine ⟨?_, gridCuts_chain step (min (lo + step) hi) hi⟩
    intro b hb
    exact (gridCuts_head_start step (min (lo + step) hi) hi b hb).symm
  · exact List.chain'_nil
termination_by (⌈(hi - lo) / step⌉).toNat
decreasing_by
  have hlt2 : lo < hi := by assumption
  have hstep2 : 0 < step := by assumption
  exact gridMeasure_decr step lo hi hlt2 hstep2

/-- C8: for every region and positive step sizes, the harvester's grid
covers the region exactly — every produced tile stays inside the region
(clipped, never overshooting), no tile exceeds the step size in either
dimension, every point of the region lies in some tile, and consecutive
intervals of each axis walk share an endpoint (no gaps). -/
theorem C8_grid_tiling (stepLat stepLon latMin latMax lonMin lonMax : ℚ)
    (hsLat : 0 < stepLat) (hsLon : 0 < stepLon) :
    (∀ tile ∈ gridTiles2D stepLat stepLon latMin latMax lonMin lonMax,
       latMin ≤ tile.1.1 ∧ tile.1.1 < tile.1.2 ∧ tile.1.2 - tile.1.1 ≤ stepLat ∧
       tile.1.2 ≤ latMax ∧
       lonMin ≤ tile.2.1 ∧ tile.2.1 < tile.2.2 ∧ tile.2.2 - tile.2.1 ≤ stepLon ∧
       tile.2.2 ≤ lonMax) ∧
    (∀ la lon : ℚ, latMin ≤ la → la ≤ latMax → latMin < latMax →
       lonMin ≤ lon → lon ≤ lonMax → lonMin < lonMax →
       ∃ tile ∈ gridTiles2D stepLat stepLon latMin latMax lonMin lonMax,
         tile.1.1 ≤ la ∧ la ≤ tile.1.2 ∧ tile.2.1 ≤ lon ∧ lon ≤ tile.2.2) ∧
    List.Chain' (fun a b : ℚ × ℚ => a.2 = b.1) (gridCuts stepLat latMin latMax) ∧
    List.Chain' (fun a b : ℚ × ℚ => a.2 = b.1) (gridCuts stepLon lonMin lonMax) := by
  refine ⟨?_, ?_, gridCuts_chain _ _ _, gridCuts_chain _ _ _⟩
  · intro tile htile
    simp only [gridTiles2D, List.mem_flatMap, List.mem_map] at htile
    obtain ⟨la, hla, lo, hlo, rfl⟩ := htile
    have h1 := gridCuts_sound stepLat latMin latMax la hla
    have h2 := gridCuts_sound stepLon lonMin lonMax lo hlo
    exact ⟨h1.1, h1.2.1, h1.2.2.1, h1.2.2.2, h2.1, h2.2.1, h2.2.2.1, h2.2.2.2⟩
  · intro la lon h1 h2 h3 h4 h5 h6
    obtain ⟨cla, hcla, ha1, ha2⟩ := gridCuts_cover stepLat latMin latMax hsLat la h1 h2 h3
    obtain ⟨clo, hclo, hb1, hb2⟩ := gridCuts_cover stepLon lonMin lonMax hsLon lon h4 h5 h6
    refine ⟨(cla, clo), ?_, ha1, ha2, hb1, hb2⟩
    simp only [gridTiles2D, List.mem_flatMap, List.mem_map]
    exact ⟨cla, hcla, clo, hclo, rfl⟩

/-- Witness for C8: on the unit square with steps 1/2 and 1/3, the point
(3/4, 1/2) is covered by some grid tile. -/
theorem C8_grid_tiling_witness :
    ∃ tile ∈ gridTiles2D (1/2) (1/3) 0 1 0 1,
      tile.1.1 ≤ (3/4 : ℚ) ∧ (3/4 : ℚ) ≤ tile.1.2 ∧
      tile.2.1 ≤ (1/2 : ℚ) ∧ (1/2 : ℚ) ≤ tile.2.2 :=
  (C8_grid_tiling (1/2) (1/3) 0 1 0 1 (by norm_num) (by norm_num)).2.1 (3/4) (1/2)
    (by norm_num) (by norm_num) (by norm_num) (by norm_num) (by norm_num) (by norm_num)
